import Mathlib

/-!
Verification of the atproto.tools ingestion pipeline (firehose consumer and
PLC mirror) against its natural-language specification.

The Go source is shallowly embedded: pure fragments become Lean functions,
database tables become explicit lists threaded through state, machine
integers become `Int`/`Nat`, and fallible operations return `Except` or
`Option`.  Calls into external libraries (CAR decoding, CBOR decoding,
AT-URI parsing, identifier syntax parsing, the upstream time parser) are
modelled as explicit function parameters, so theorems quantify over every
possible behaviour of those collaborators.
-/

namespace ATools

/-- String containment: `sub` occurs contiguously inside `s`. -/
def containsStr (s sub : String) : Prop :=
  ∃ p q : String, s = p ++ (sub ++ q)

/-- Escape of one character as produced by the Go `%q` verb (quote and
backslash escaped; other characters of the identifiers and paths appearing
in this code base are printable ASCII and pass through unchanged). -/
def goQuoteChar (c : Char) : String :=
  if c = '"' then "\\\"" else if c = '\\' then "\\\\" else String.singleton c

/-- Embedding of the Go `%q` format verb on a string value. -/
def goQuote (s : String) : String :=
  "\"" ++ String.join (s.data.map goQuoteChar) ++ "\""

/-- Character-list prefix test (structurally recursive so that concrete
instances evaluate). -/
def isPrefOf : List Char → List Char → Bool
  | [], _ => true
  | _ :: _, [] => false
  | a :: as, b :: bs => a == b && isPrefOf as bs

/-- Embedding of Go `strings.TrimPrefix`. -/
def trimPref (s pat : String) : String :=
  if isPrefOf pat.data s.data then String.mk (s.data.drop pat.data.length) else s

/-! ## Generic JSON value tree

The PLC operation body is schema-loose JSON (`any` in the Go source after
`json.Unmarshal`); objects are modelled as association lists, matching the
Go code's generic `map[string]interface{}` / `[]interface{}` walk. -/

inductive JSONValue where
  | null : JSONValue
  | bool : Bool → JSONValue
  | num : Int → JSONValue
  | str : String → JSONValue
  | arr : List JSONValue → JSONValue
  | obj : List (String × JSONValue) → JSONValue

/-- Key lookup in a JSON object, the embedding of `opMap["key"]`. -/
def lookupField : List (String × JSONValue) → String → Option JSONValue
  | [], _ => none
  | (k, v) :: rest, key => if k = key then some v else lookupField rest key

/-! ## Time values

Go `time.Time` instants are embedded as nanoseconds since the Unix epoch
together with the zone offset (minutes east of UTC) that `Format` uses. -/

structure GoTime where
  nanos : Int
  offsetMin : Int
deriving DecidableEq, Repr

/-- Left-pad a decimal rendering with zeros to the given width. -/
def padZeros (s : String) (n : Nat) : String :=
  String.mk (List.replicate (n - s.length) '0') ++ s

/-- Civil date from days since 1970-01-01 (proleptic Gregorian calendar),
the conversion Go's `time` package performs when formatting. Returns
(year, month, day). -/
def civilFromDays (z : Int) : Int × Nat × Nat :=
  let z' := z + 719468
  let era := z'.fdiv 146097
  let doe := (z' - era * 146097).toNat
  let yoe := (doe - doe / 1460 + doe / 36524 - doe / 146096) / 365
  let doy := doe - (365 * yoe + yoe / 4 - yoe / 100)
  let mp := (5 * doy + 2) / 153
  let d := doy - (153 * mp + 2) / 5 + 1
  let m := if mp < 10 then mp + 3 else mp - 9
  let y : Int := (yoe : Int) + era * 400 + (if m ≤ 2 then 1 else 0)
  (y, m, d)

/-- Fractional-second suffix of Go's `.999999999` layout element: up to nine
digits with trailing zeros removed, the whole element omitted when the
fraction is zero. -/
def fracSuffix (nanos : Nat) : String :=
  if nanos = 0 then ""
  else
    "." ++ String.mk ((padZeros (toString nanos) 9).data.reverse.dropWhile (· = '0')).reverse

/-- Zone suffix of the `Z07:00` layout element. -/
def zoneSuffix (offsetMin : Int) : String :=
  if offsetMin = 0 then "Z"
  else
    let sign := if offsetMin < 0 then "-" else "+"
    let a := offsetMin.natAbs
    sign ++ padZeros (toString (a / 60)) 2 ++ ":" ++ padZeros (toString (a % 60)) 2

/-- Embedding of Go `t.Format(time.RFC3339Nano)`, layout
`2006-01-02T15:04:05.999999999Z07:00`. -/
def rfc3339Nano (t : GoTime) : String :=
  let total := t.nanos + t.offsetMin * 60 * 1000000000
  let secs := total.fdiv 1000000000
  let ns := (total.emod 1000000000).toNat
  let days := secs.fdiv 86400
  let sod := (secs.emod 86400).toNat
  let ymd := civilFromDays days
  let hh := sod / 3600
  let mi := sod % 3600 / 60
  let ss := sod % 60
  padZeros (toString ymd.1) 4 ++ "-" ++ padZeros (toString ymd.2.1) 2 ++ "-" ++
    padZeros (toString ymd.2.2) 2 ++ "T" ++ padZeros (toString hh) 2 ++ ":" ++
    padZeros (toString mi) 2 ++ ":" ++ padZeros (toString ss) 2 ++
    fracSuffix ns ++ zoneSuffix t.offsetMin

/-! ## PLC mirror: data model (pkg/plc) -/

/-- A stored directory operation, the embedding of `plc.DBOp`.  The opaque
`Operation []byte` column holds canonical JSON; it is embedded as the
decoded value tree (`DBOp.ToOp` unmarshals it before projection). -/
structure DBOp where
  did : String
  cid : String
  createdAt : GoTime
  nullified : Bool
  operation : JSONValue
  pds : String
  handle : String

/-- The paginator cursor row, the embedding of `plc.Cursor` (`gorm.Model`
gives the `ID` column; `ID = 0` means the row was never persisted). -/
structure PLCCursor where
  id : Nat
  did : String
  cid : String
  lastCreatedAt : GoTime
  opsSeen : Int
deriving DecidableEq, Repr

/-- The subject index row, the embedding of `plc.DBDid`. -/
structure DBDid where
  did : String
  createdAt : GoTime
deriving DecidableEq, Repr

/-- A decoded export-log entry, the embedding of `plc.PLCOp`. -/
structure PLCOp where
  did : String
  cid : String
  createdAt : GoTime
  nullified : Bool
  operation : JSONValue

/-- Reader errors of the PLC mirror: `ErrNotFound` is distinguished from
internal failures. -/
inductive PLCError where
  | notFound : PLCError
  | internal : String → PLCError
deriving DecidableEq, Repr

/-- A document-level service, the embedding of `identity.DocService`. -/
structure DocService where
  id : String
  type : String
  serviceEndpoint : String
deriving DecidableEq, Repr

/-- A document-level verification method, the embedding of
`identity.DocVerificationMethod`. -/
structure DocVerificationMethod where
  id : String
  type : String
  controller : String
  publicKeyMultibase : String
deriving DecidableEq, Repr

/-- The projected DID document, the embedding of `plc.DIDDocument` (fixed
context array plus the embedded `identity.DIDDocument` fields used by
`GetDIDDocument`). -/
structure DIDDocument where
  context : List String
  id : String
  alsoKnownAs : List String
  service : List DocService
  verificationMethod : List DocVerificationMethod
deriving DecidableEq, Repr

/-- The fixed `@context` triple (`var contexts` in plc.go). -/
def contexts : List String :=
  ["https://www.w3.org/ns/did/v1",
   "https://w3id.org/security/multikey/v1",
   "https://w3id.org/security/suites/secp256k1-2019/v1"]

/-- Keep the candidate unless a strictly newer operation has already been
selected. -/
def pickNewer (cand : DBOp) : Option DBOp → Option DBOp
  | none => some cand
  | some best =>
    if cand.createdAt.nanos < best.createdAt.nanos then some best else some cand

/-- Embedding of the reader query
`Where("d_id = ?", did).Order("created_at desc").First`: the stored
operation for `did` with the greatest creation timestamp (the query does
not filter on the `nullified` column). -/
def latestOpFor : List DBOp → String → Option DBOp
  | [], _ => none
  | op :: rest, did =>
    if op.did = did then pickNewer op (latestOpFor rest did)
    else latestOpFor rest did

/-- Coerce a JSON array to a string array, the embedding of the
`alsoKnownAs` element loop (each element must cast to `string`). -/
def asStringList : List JSONValue → Except String (List String)
  | [] => .ok []
  | x :: rest =>
    match x with
    | .str s =>
      match asStringList rest with
      | .ok r => .ok (s :: r)
      | .error e => .error e
    | _ => .error "failed to cast alsoKnownAs to string"

/-- Embedding of the `services` map loop of `GetDIDDocument`: each value
must be a map holding string `type` and `endpoint` keys; entry `k` becomes
service id `#k`. -/
def extractServices : List (String × JSONValue) → Except String (List DocService)
  | [] => .ok []
  | (k, svc) :: rest =>
    match svc with
    | .obj fields =>
      match lookupField fields "type" with
      | some (.str t) =>
        match lookupField fields "endpoint" with
        | some (.str ep) =>
          match extractServices rest with
          | .ok r => .ok ({ id := "#" ++ k, type := t, serviceEndpoint := ep } :: r)
          | .error e => .error e
        | _ => .error "service map does not contain a 'endpoint' key"
      | _ => .error "service map does not contain a 'type' key"
    | _ => .error "service is not a map"

/-- Embedding of the `verificationMethods` map loop of `GetDIDDocument`:
each value must be a string; a `did:key:` lead is trimmed and entry `k`
becomes method id `<did>#k` with type `Multikey` and controller `did`. -/
def extractVerificationMethods (did : String) :
    List (String × JSONValue) → Except String (List DocVerificationMethod)
  | [] => .ok []
  | (k, v) :: rest =>
    match v with
    | .str s =>
      match extractVerificationMethods did rest with
      | .ok r =>
        .ok ({ id := did ++ "#" ++ k, type := "Multikey", controller := did,
               publicKeyMultibase := trimPref s "did:key:" } :: r)
      | .error e => .error e
    | _ => .error "failed to cast verification method key to string"

/-- The `services` block of `GetDIDDocument`: entered only when the
`services` key casts to a map (a missing or non-map key is skipped
silently, leaving the service list empty and raising no error). -/
def servicesResult (opMap : List (String × JSONValue)) : Except String (List DocService) :=
  match lookupField opMap "services" with
  | some (.obj svcs) => extractServices svcs
  | _ => .ok []

/-- The `verificationMethods` block of `GetDIDDocument`, with the same
skip-on-cast-failure behaviour as the services block. -/
def vmResult (did : String) (opMap : List (String × JSONValue)) :
    Except String (List DocVerificationMethod) :=
  match lookupField opMap "verificationMethods" with
  | some (.obj vms) => extractVerificationMethods did vms
  | _ => .ok []

/-- Projection of a stored operation body into a DID document, the
extraction part of `plc.GetDIDDocument` (plc.go lines 331-407). -/
def projectDoc (did : String) (opJson : JSONValue) : Except PLCError DIDDocument :=
  match opJson with
  | .obj opMap =>
    match lookupField opMap "alsoKnownAs" with
    | some (.arr akaRaw) =>
      match asStringList akaRaw with
      | .error e => .error (.internal e)
      | .ok aka =>
        match servicesResult opMap with
        | .error e => .error (.internal e)
        | .ok services =>
          match vmResult did opMap with
          | .error e => .error (.internal e)
          | .ok vms =>
            .ok { context := contexts, id := did, alsoKnownAs := aka,
                  service := services, verificationMethod := vms }
    | _ => .error (.internal "failed to cast alsoKnownAs to interface slice")
  | _ => .error (.internal "failed to cast operation to map")

/-- Embedding of `plc.GetDIDDocument` over the stored operation table:
select the operation for the subject with the greatest creation timestamp
(no `nullified` filter appears in the source query) and project it. -/
def getDIDDocument (ops : List DBOp) (did : String) : Except PLCError DIDDocument :=
  match latestOpFor ops did with
  | none => .error .notFound
  | some op => projectDoc did op.operation

/-! ## PLC mirror: paginator (pkg/plc `GetNextPage`) -/

/-- Embedding of the `after` query fragment of `GetNextPage`: present only
when the cursor row has been persisted (`plc.Cursor.ID != 0`). -/
def plcExportURL (host : String) (pageSize : Int) (cursor : PLCCursor) : String :=
  host ++ "/export?count=" ++ toString pageSize ++
    (if cursor.id ≠ 0 then "&after=" ++ rfc3339Nano cursor.lastCreatedAt else "")

/-- First `alsoKnownAs` string element with the `at://` lead trimmed, the
handle extraction of `PLCOp.ToDBOp`. -/
def firstHandle : List JSONValue → String
  | [] => ""
  | .str s :: _ => trimPref s "at://"
  | _ :: rest => firstHandle rest

/-- Handle column derivation of `PLCOp.ToDBOp`. -/
def extractHandle (op : JSONValue) : String :=
  match op with
  | .obj fields =>
    match lookupField fields "alsoKnownAs" with
    | some (.arr aka) => firstHandle aka
    | _ => ""
  | _ => ""

/-- PDS column derivation of `PLCOp.ToDBOp`
(`services.atproto_pds.endpoint` when every cast succeeds). -/
def extractPDSEndpoint (op : JSONValue) : String :=
  match op with
  | .obj fields =>
    match lookupField fields "services" with
    | some (.obj svcs) =>
      match lookupField svcs "atproto_pds" with
      | some (.obj pdsFields) =>
        match lookupField pdsFields "endpoint" with
        | some (.str ep) => ep
        | _ => ""
      | _ => ""
    | _ => ""
  | _ => ""

/-- Embedding of `PLCOp.ToDBOp`. -/
def PLCOp.toDBOp (op : PLCOp) : DBOp :=
  { did := op.did, cid := op.cid, createdAt := op.createdAt,
    nullified := op.nullified, operation := op.operation,
    pds := extractPDSEndpoint op.operation, handle := extractHandle op.operation }

/-- One decode-loop step of `GetNextPage`: the in-memory cursor is advanced
to each decoded entry as it is read, before anything is written. -/
def advanceCursor (c : PLCCursor) (op : PLCOp) : PLCCursor :=
  { c with did := op.did, cid := op.cid, lastCreatedAt := op.createdAt,
           opsSeen := c.opsSeen + 1 }

/-- Conflict-ignored insert into the subject index
(`Clauses(clause.OnConflict{DoNothing: true})` over the unique `DID`
column). -/
def insertDidIgnore (t : List DBDid) (d : DBDid) : List DBDid :=
  if t.any (fun x => x.did = d.did) then t else t ++ [d]

/-- The paginator's durable and in-memory state: the in-memory cursor, the
persisted cursor row, and the two tables it writes. -/
structure PLCState where
  cursor : PLCCursor
  persisted : Option PLCCursor
  ops : List DBOp
  dids : List DBDid

/-- Embedding of `plc.GetNextPage` after a successful HTTP fetch and JSON
decode of a page (`page`): the decode loop advances the in-memory cursor
per entry and accumulates the batch; then ops are batch-inserted, the
subject index is batch-inserted with conflict-ignore, and only then is the
cursor row saved (gorm assigns an id on first save).  The three `Bool`
parameters model success of the three writer calls; a failed call leaves
its table unchanged and returns the wrapped error without running the later
steps. -/
def getNextPage (st : PLCState) (page : List PLCOp)
    (writeOpsOk writeDidsOk saveCursorOk : Bool) :
    PLCState × Except String Int :=
  let cursor' := page.foldl advanceCursor st.cursor
  let dbOps := page.map PLCOp.toDBOp
  let st' := { st with cursor := cursor' }
  if page.isEmpty then (st', .ok 0)
  else if !writeOpsOk then (st', .error "failed to save ops")
  else
    let st2 := { st' with ops := st.ops ++ dbOps }
    if !writeDidsOk then (st2, .error "failed to save dids")
    else
      let st3 := { st2 with
        dids := (page.map (fun op => DBDid.mk op.did op.createdAt)).foldl insertDidIgnore st.dids }
      if !saveCursorOk then (st3, .error "failed to save cursor")
      else
        let saved := if cursor'.id = 0 then { cursor' with id := 1 } else cursor'
        ({ st3 with cursor := saved, persisted := some saved }, .ok (page.length : Int))

/-! ## Firehose consumer: connection URL (pkg/stream `Stream.Start`) -/

/-- A parsed WebSocket URL: base plus query parameters. -/
structure SocketURL where
  base : String
  query : List (String × String)
deriving DecidableEq, Repr

/-- Embedding of Go `url.Values.Set`: replace the value of an existing key
or append the pair. -/
def setQueryParam : List (String × String) → String → String → List (String × String)
  | [], k, v => [(k, v)]
  | (k', v') :: rest, k, v =>
    if k' = k then (k, v) :: rest else (k', v') :: setQueryParam rest k v

/-- The consumer's cursor row, the embedding of `stream.Cursor`. -/
structure StreamCursor where
  id : Nat
  lastSeq : Int
deriving DecidableEq, Repr

/-- Embedding of the connection-URL construction in `Stream.Start`: the
`seq` query parameter is set only when the loaded cursor's `LastSeq` is
nonzero. -/
def dialURL (u : SocketURL) (c : StreamCursor) : SocketURL :=
  if c.lastSeq ≠ 0 then
    { u with query := setQueryParam u.query "seq" (toString c.lastSeq) }
  else u

/-! ## Firehose consumer: commit decoding (pkg/stream `Stream.RepoCommit`) -/

/-- A firehose event metadata row, the embedding of `stream.Event`. -/
structure StreamEvent where
  firehoseSeq : Int
  repo : String
  eventType : String
  error : String
  time : Int
  since : Option String
deriving DecidableEq, Repr

/-- A stream record row, the embedding of `stream.Record` (`Raw` holds the
re-encoded JSON bytes; empty for deletes). -/
structure StreamRecord where
  firehoseSeq : Int
  repo : String
  collection : String
  rkey : String
  action : String
  raw : List Nat
deriving DecidableEq, Repr

/-- A parsed AT-URI, the result shape of `syntax.ParseATURI` that
`RepoCommit` consumes. -/
structure ATURI where
  authority : String
  collection : String
  rkey : String
deriving DecidableEq, Repr

/-- External collaborators of the commit decoder, modelled as explicit
functions: the CAR block fetch (`repo.GetRecordBytes`, yielding the block's
content hash as its string form and possibly-nil bytes), the CBOR decoder
(`data.UnmarshalCBOR`), the JSON encoder (`json.Marshal`) and the AT-URI
parser (`syntax.ParseATURI`).  Errors are carried as their rendered
strings. -/
structure DecodeCtx where
  fetch : String → Except String (String × Option (List Nat))
  unmarshalCBOR : List Nat → Except String JSONValue
  marshalJSON : JSONValue → Except String (List Nat)
  parseATURI : String → Except String ATURI

/-- A commit operation of a frame, the embedding of `RepoOp` (a missing
declared hash is `none`; the hash is carried as its string form, which is
what the Go `%q` of a `cid.Cid` renders). -/
structure CommitOp where
  action : String
  path : String
  cid : Option String
deriving DecidableEq, Repr

/-- A commit frame, the embedding of `SyncSubscribeRepos_Commit` with the
external decodes it triggers resolved as data: `blocks` is the outcome of
`repo.ReadRepoFromCar` over the frame's CAR bytes (on success, the block
fetch function), `time` the outcome of `dateparse.ParseAny(evt.Time)` in
Unix nanoseconds. -/
structure CommitEvt where
  seq : Int
  repo : String
  tooBig : Bool
  blocks : Except String (String → Except String (String × Option (List Nat)))
  time : Except String Int
  since : Option String
  ops : List CommitOp

/-- One iteration of the op loop of `Stream.RepoCommit` (stream.go lines
261-352): takes the accumulated event-error string, returns it extended
with this op's failure (if any) together with the record rows written for
this op (writer success is assumed; a write failure would only append one
more error).  Every failure branch `continue`s, never aborting the frame. -/
def processOp (ctx : DecodeCtx) (seq : Int) (repo : String) (acc : String)
    (op : CommitOp) : String × List StreamRecord :=
  if op.action = "create" ∨ op.action = "update" then
    match op.cid with
    | none => (acc ++ ("op missing cid (path: " ++ (goQuote op.path ++ ")")), [])
    | some c =>
      match ctx.fetch op.path with
      | .error err =>
        (acc ++ ("failed to get record bytes (path: " ++ (goQuote op.path ++ ("): " ++ err))), [])
      | .ok (bcid, rec) =>
        if c ≠ bcid then
          (acc ++ ("cid mismatch (path: " ++ (goQuote op.path ++
            ("): from_event " ++ (goQuote c ++ (", from_blocks " ++ goQuote bcid))))), [])
        else
          match rec with
          | none =>
            (acc ++ ("record not found (nil bytes loaded from event blocks) path: " ++
              goQuote op.path), [])
          | some bytes =>
            match ctx.unmarshalCBOR bytes with
            | .error err =>
              (acc ++ ("failed to unmarshal record from CBOR (path: " ++
                (goQuote op.path ++ ("): " ++ err))), [])
            | .ok v =>
              match ctx.marshalJSON v with
              | .error err =>
                (acc ++ ("failed to marshal record to JSON (path: " ++
                  (goQuote op.path ++ ("): " ++ err))), [])
              | .ok recJSON =>
                match ctx.parseATURI ("at://" ++ repo ++ "/" ++ op.path) with
                | .error err =>
                  (acc ++ ("failed to parse record uri (path: " ++
                    (goQuote op.path ++ ("): " ++ err))), [])
                | .ok uri =>
                  (acc, [{ firehoseSeq := seq, repo := uri.authority,
                           collection := uri.collection, rkey := uri.rkey,
                           action := op.action, raw := recJSON }])
  else if op.action = "delete" then
    match ctx.parseATURI ("at://" ++ repo ++ "/" ++ op.path) with
    | .error err =>
      (acc ++ ("failed to parse record uri (path: " ++
        (goQuote op.path ++ ("): " ++ err))), [])
    | .ok uri =>
      (acc, [{ firehoseSeq := seq, repo := uri.authority,
               collection := uri.collection, rkey := uri.rkey,
               action := op.action, raw := [] }])
  else
    (acc ++ ("unknown action (path: " ++ (goQuote op.path ++ ("): " ++ goQuote op.action))), [])

/-- The whole op loop: error accumulation threads left-to-right, record
rows are written in op order. -/
def processOps (ctx : DecodeCtx) (seq : Int) (repo : String) :
    String → List CommitOp → String × List StreamRecord
  | acc, [] => (acc, [])
  | acc, op :: rest =>
    let r := processOp ctx seq repo acc op
    let rr := processOps ctx seq repo r.1 rest
    (rr.1, r.2 ++ rr.2)

/-- Embedding of `Stream.RepoCommit`: returns the single event row the
deferred `db.Create` persists (registered before any decode step) together
with the record rows written for the frame.  The Go callback returns `nil`
on every path, so the stream always proceeds to the next frame. -/
def repoCommit (ext : DecodeCtx) (evt : CommitEvt) : StreamEvent × List StreamRecord :=
  let e0 : StreamEvent :=
    { firehoseSeq := evt.seq, repo := evt.repo, eventType := "commit",
      error := "", time := 0, since := evt.since }
  if evt.tooBig then ({ e0 with error := "commit too big" }, [])
  else
    match evt.blocks with
    | .error err => ({ e0 with error := "failed to read event repo: " ++ err }, [])
    | .ok fetch =>
      match evt.time with
      | .error err => ({ e0 with error := "failed to parse time: " ++ err }, [])
      | .ok t =>
        let ctx : DecodeCtx :=
          { fetch := fetch, unmarshalCBOR := ext.unmarshalCBOR,
            marshalJSON := ext.marshalJSON, parseATURI := ext.parseATURI }
        let r := processOps ctx evt.seq evt.repo "" evt.ops
        ({ e0 with time := t, error := r.1 }, r.2)

/-! ## Firehose consumer: metadata frames (pkg/stream `Stream.RepoHandle`
and the identically-shaped identity/migrate/tombstone handlers) -/

/-- A handle/identity/migrate/tombstone frame: sequence, subject DID, and
the raw upstream time string. -/
structure MetaFrame where
  seq : Int
  did : String
  time : String
deriving DecidableEq, Repr

/-- Embedding of `Stream.RepoHandle` (stream.go lines 357-392; the
identity, migrate and tombstone handlers share the same shape): the event
row is built, then the upstream time is parsed, and only after a successful
parse is the deferred `db.Create(e)` registered — so a parse failure
returns without persisting any row (the `e.Error` assignment on that path
is dead).  The result is the persisted event row, `none` when nothing is
written.  `parseTime` is the external `dateparse.ParseAny`. -/
def repoHandle (parseTime : String → Except String Int) (frame : MetaFrame) :
    Option StreamEvent :=
  let e : StreamEvent :=
    { firehoseSeq := frame.seq, repo := frame.did, eventType := "handle",
      error := "", time := 0, since := none }
  match parseTime frame.time with
  | .error _ => none
  | .ok t => some { e with time := t }

/-! ## Query HTTP surface (pkg/stream handlers.go) -/

/-- Embedding of Go `strconv.Atoi`: optional sign, decimal digits only,
64-bit range. -/
def goAtoiDigits : List Char → Option Nat
  | [] => none
  | ds =>
    if ds.all (fun c => c.isDigit) then
      some (ds.foldl (fun n c => n * 10 + (c.toNat - 48)) 0)
    else none

/-- Embedding of Go `strconv.Atoi` (sign handling and int64 range). -/
def goAtoi (s : String) : Option Int :=
  match s.data with
  | '+' :: rest =>
    match goAtoiDigits rest with
    | some n => if (n : Int) ≤ 9223372036854775807 then some (n : Int) else none
    | none => none
  | '-' :: rest =>
    match goAtoiDigits rest with
    | some n => if (n : Int) ≤ 9223372036854775808 then some (-(n : Int)) else none
    | none => none
  | ds =>
    match goAtoiDigits ds with
    | some n => if (n : Int) ≤ 9223372036854775807 then some (n : Int) else none
    | none => none

/-- External identifier parsers used by the handlers
(`syntax.ParseDID`, `ParseNSID`, `ParseRecordKey`, `ParseHandle`), modelled
as arbitrary functions returning the parsed value or a rendered error. -/
structure SyntaxParsers where
  parseDID : String → Except String String
  parseNSID : String → Except String String
  parseRecordKey : String → Except String String
  parseHandle : String → Except String String

/-- Observable outcome of a query handler: HTTP status, the `error` field
of the JSON response body, whether the database was queried, and the
`LIMIT` the query used. -/
structure HandlerResult where
  status : Nat
  errorBody : String
  dbQueried : Bool
  limitUsed : Option Int
deriving DecidableEq, Repr

/-- Query parameters of `GET /records`. -/
structure RecordsParams where
  did : String
  collection : String
  rkey : String
  seq : String
  limit : String
deriving DecidableEq, Repr

/-- Shared tail of the three handlers: parse-or-default the `limit`
parameter, clamp it, and run the query.  `dbErr` models a reader failure
surfaced by gorm (`q.Error`). -/
def finishWithLimit (limitParam : String) (dbErr : Option String) : HandlerResult :=
  match (if limitParam ≠ "" then goAtoi limitParam else some 100) with
  | none => { status := 400, errorBody := "invalid limit: parse error",
              dbQueried := false, limitUsed := none }
  | some l0 =>
    let l1 := if l0 < 1 then 100 else l0
    let l2 := if l1 > 1000 then 1000 else l1
    match dbErr with
    | some e => { status := 500, errorBody := e, dbQueried := true, limitUsed := some l2 }
    | none => { status := 200, errorBody := "", dbQueried := true, limitUsed := some l2 }

/-- Embedding of `Stream.HandleGetRecords` (handlers.go lines 59-172):
parameter validation in source order, the collection-without-did and
rkey-without-did-and-collection guards, limit clamping, then the query. -/
def handleGetRecords (p : SyntaxParsers) (dbErr : Option String)
    (params : RecordsParams) : HandlerResult :=
  let badReq : String → HandlerResult := fun msg =>
    { status := 400, errorBody := msg, dbQueried := false, limitUsed := none }
  match (if params.did ≠ "" then (p.parseDID params.did).map some else .ok none) with
  | .error e => badReq ("invalid DID: " ++ e)
  | .ok didQ =>
    match (if params.collection ≠ "" then (p.parseNSID params.collection).map some
           else .ok none) with
    | .error e => badReq ("invalid collection: " ++ e)
    | .ok collQ =>
      match (if params.rkey ≠ "" then (p.parseRecordKey params.rkey).map some
             else .ok none) with
      | .error e => badReq ("invalid record key: " ++ e)
      | .ok rkeyQ =>
        match (if params.seq ≠ "" then (goAtoi params.seq).elim (.error "parse error")
                 (fun n => .ok (some n)) else .ok none :
               Except String (Option Int)) with
        | .error e => badReq ("invalid sequence number: " ++ e)
        | .ok _ =>
          if collQ.isSome ∧ didQ.isNone then
            badReq "cannot query by collection without a DID"
          else if rkeyQ.isSome ∧ (didQ.isNone ∨ collQ.isNone) then
            badReq "cannot query by rkey without a DID and collection"
          else finishWithLimit params.limit dbErr

/-- Query parameters of `GET /events`. -/
structure EventsParams where
  did : String
  eventType : String
  seq : String
  limit : String
deriving DecidableEq, Repr

/-- Embedding of `Stream.HandleGetEvents` (handlers.go lines 207-290). -/
def handleGetEvents (p : SyntaxParsers) (dbErr : Option String)
    (params : EventsParams) : HandlerResult :=
  let badReq : String → HandlerResult := fun msg =>
    { status := 400, errorBody := msg, dbQueried := false, limitUsed := none }
  match (if params.did ≠ "" then (p.parseDID params.did).map some else .ok none) with
  | .error e => badReq ("invalid DID: " ++ e)
  | .ok _ =>
    match (if params.seq ≠ "" then (goAtoi params.seq).elim (.error "parse error")
             (fun n => .ok (some n)) else .ok none :
           Except String (Option Int)) with
    | .error e => badReq ("invalid sequence number: " ++ e)
    | .ok _ => finishWithLimit params.limit dbErr

/-- Query parameters of `GET /identities`. -/
structure IdentitiesParams where
  did : String
  handle : String
  pds : String
  limit : String
deriving DecidableEq, Repr

/-- Embedding of `Stream.HandleGetIdentities` (handlers.go lines 320-403). -/
def handleGetIdentities (p : SyntaxParsers) (dbErr : Option String)
    (params : IdentitiesParams) : HandlerResult :=
  let badReq : String → HandlerResult := fun msg =>
    { status := 400, errorBody := msg, dbQueried := false, limitUsed := none }
  match (if params.did ≠ "" then (p.parseDID params.did).map some else .ok none) with
  | .error e => badReq ("invalid DID: " ++ e)
  | .ok _ =>
    match (if params.handle ≠ "" then (p.parseHandle params.handle).map some
           else .ok none) with
    | .error e => badReq ("invalid handle: " ++ e)
    | .ok _ => finishWithLimit params.limit dbErr

/-! ## Specification predicates and concrete scenario inputs -/

/-- What the spec asserts `GetDIDDocument` produces for a subject with at
least one stored operation: the operation selected has the greatest
creation timestamp among the subject's stored operations, the context is
the fixed triple, `alsoKnownAs` is copied as-is, and each `services` /
`verificationMethods` entry appears in the document in its prescribed
shape. -/
def ProjectionSpec (ops : List DBOp) (did : String) (doc : DIDDocument) : Prop :=
  ∃ op, latestOpFor ops did = some op ∧ op ∈ ops ∧ op.did = did ∧
    (∀ o ∈ ops, o.did = did → o.createdAt.nanos ≤ op.createdAt.nanos) ∧
    doc.context = contexts ∧ doc.id = did ∧
    (∃ opMap akaRaw, op.operation = .obj opMap ∧
      lookupField opMap "alsoKnownAs" = some (.arr akaRaw) ∧
      akaRaw = doc.alsoKnownAs.map JSONValue.str) ∧
    (∀ opMap svcs, op.operation = .obj opMap →
      lookupField opMap "services" = some (.obj svcs) →
      ∀ k v, (k, v) ∈ svcs → ∃ fields t ep, v = .obj fields ∧
        lookupField fields "type" = some (.str t) ∧
        lookupField fields "endpoint" = some (.str ep) ∧
        ({ id := "#" ++ k, type := t, serviceEndpoint := ep } : DocService) ∈ doc.service) ∧
    (∀ opMap vms, op.operation = .obj opMap →
      lookupField opMap "verificationMethods" = some (.obj vms) →
      ∀ k v, (k, v) ∈ vms → ∃ s, v = .str s ∧
        ({ id := did ++ "#" ++ k, type := "Multikey", controller := did,
           publicKeyMultibase := trimPref s "did:key:" } : DocVerificationMethod)
          ∈ doc.verificationMethod)

/-- Scenario S4 operation body: one handle, one atproto PDS service, one
`atproto` verification method carrying a `did:key:`-prefixed multikey. -/
def s4opJson : JSONValue :=
  .obj [("alsoKnownAs", .arr [.str "at://alice.test"]),
        ("services", .obj [("atproto_pds",
           .obj [("type", .str "AtprotoPersonalDataServer"),
                 ("endpoint", .str "https://pds.example")])]),
        ("verificationMethods", .obj [("atproto", .str "did:key:zABC")])]

/-- Scenario S4 stored operation for `did:plc:xyz`. -/
def s4op : DBOp :=
  { did := "did:plc:xyz", cid := "cidS4", createdAt := ⟨1000, 0⟩,
    nullified := false, operation := s4opJson,
    pds := "https://pds.example", handle := "alice.test" }

/-- Single-operation table for the projection witness. -/
def s4ops : List DBOp := [s4op]

/-- The document the embedding projects for scenario S4. -/
def s4doc : DIDDocument :=
  { context := contexts, id := "did:plc:xyz",
    alsoKnownAs := ["at://alice.test"],
    service := [{ id := "#atproto_pds", type := "AtprotoPersonalDataServer",
                  serviceEndpoint := "https://pds.example" }],
    verificationMethod := [{ id := "did:plc:xyz#atproto", type := "Multikey",
                             controller := "did:plc:xyz",
                             publicKeyMultibase := "zABC" }] }

/-- An early, non-nullified operation for the nullification scenario. -/
def nullifScenarioOld : DBOp :=
  { did := "did:plc:xyz", cid := "cidOld", createdAt := ⟨1, 0⟩,
    nullified := false,
    operation := .obj [("alsoKnownAs", .arr [.str "at://alice.test"])],
    pds := "", handle := "alice.test" }

/-- A later operation for the same subject whose `nullified` flag is set. -/
def nullifScenarioNew : DBOp :=
  { did := "did:plc:xyz", cid := "cidNew", createdAt := ⟨2, 0⟩,
    nullified := true,
    operation := .obj [("alsoKnownAs", .arr [.str "at://bob.test"])],
    pds := "", handle := "bob.test" }

/-- Operation table whose most recent entry is nullified. -/
def nullifScenarioOps : List DBOp := [nullifScenarioOld, nullifScenarioNew]

/-- The relay endpoint with an empty query string. -/
def relayBaseURL : SocketURL :=
  { base := "wss://bsky.network/xrpc/com.atproto.sync.subscribeRepos", query := [] }

/-- A persisted stream-cursor row whose saved sequence is zero. -/
def zeroSeqCursor : StreamCursor := { id := 1, lastSeq := 0 }

/-- A persisted stream-cursor row at sequence 100 (scenario S3). -/
def seq100Cursor : StreamCursor := { id := 1, lastSeq := 100 }

/-- A persisted PLC paginator cursor (row id assigned, so `after` is sent). -/
def persistedPLCCursor : PLCCursor :=
  { id := 1, did := "did:plc:xyz", cid := "cidS4", lastCreatedAt := ⟨0, 0⟩,
    opsSeen := 42 }

/-- Paginator state holding the persisted cursor above and empty tables. -/
def plcStateBefore : PLCState :=
  { cursor := persistedPLCCursor, persisted := some persistedPLCCursor,
    ops := [], dids := [] }

/-- An export-log entry newer than the persisted cursor. -/
def plcFailedOp : PLCOp :=
  { did := "did:plc:abcd", cid := "cidNext", createdAt := ⟨1000000000, 0⟩,
    nullified := false,
    operation := .obj [("alsoKnownAs", .arr [.str "at://carol.test"])] }

/-- A one-entry export page whose entry is newer than the cursor. -/
def plcFailedPage : List PLCOp := [plcFailedOp]

/-- Decode context for the commit scenarios: the block store holds the
scenario S2 path under a block hash different from the declared one. -/
def s2ctx : DecodeCtx :=
  { fetch := fun p =>
      if p = "app.bsky.feed.post/3kabc" then .ok ("bafyBLOCK", some [1, 2, 3])
      else .error "no such path",
    unmarshalCBOR := fun _ => .ok .null,
    marshalJSON := fun _ => .ok [110, 117, 108, 108],
    parseATURI := fun _ => .ok ⟨"did:plc:aaaa", "app.bsky.feed.post", "3kabc"⟩ }

/-- Scenario S2 create operation: declared hash differs from the block's. -/
def s2op : CommitOp :=
  { action := "create", path := "app.bsky.feed.post/3kabc", cid := some "bafyEVENT" }

/-- Scenario S1 commit frame: `tooBig` set, seq 42, repo `did:plc:aaaa`. -/
def s1evt : CommitEvt :=
  { seq := 42, repo := "did:plc:aaaa", tooBig := true,
    blocks := .error "not decoded", time := .error "not parsed",
    since := none, ops := [s2op] }

/-- A time parser that fails on every input, standing for
`dateparse.ParseAny` on an unparseable upstream time string. -/
def failParse : String → Except String Int :=
  fun s => .error ("Could not find format for " ++ s)

/-- A time parser that succeeds, standing for `dateparse.ParseAny` on a
well-formed upstream time string. -/
def okParse : String → Except String Int := fun _ => .ok 1700000000000000000

/-- A handle frame whose upstream time string does not parse. -/
def badTimeFrame : MetaFrame := { seq := 7, did := "did:plc:aaaa", time := "not-a-time" }

/-- The clamp the spec describes for the `limit` parameter: above 1000 it
is reduced to 1000, below 1 it is replaced by the default 100. -/
def clampedLimit (n : Int) : Int :=
  if n > 1000 then 1000 else if n < 1 then 100 else n

/-- Identifier parsers that accept every input, for handler witnesses. -/
def acceptAllParsers : SyntaxParsers :=
  { parseDID := fun s => .ok s, parseNSID := fun s => .ok s,
    parseRecordKey := fun s => .ok s, parseHandle := fun s => .ok s }

/-! ## Helper lemmas -/

theorem containsStr_intro (p sub q s : String) (h : s = p ++ (sub ++ q)) :
    containsStr s sub :=
  ⟨p, q, h⟩

theorem strAppend_ne_empty (a b : String) (ha : a.length ≠ 0) : a ++ b ≠ "" := by
  intro h
  have h2 := congrArg String.length h
  rw [String.length_append] at h2
  have h0 : ("" : String).length = 0 := rfl
  omega

theorem latestOpFor_none (ops : List DBOp) (did : String)
    (h : latestOpFor ops did = none) : ∀ o ∈ ops, o.did ≠ did := by
  induction ops with
  | nil => intro o ho; simp at ho
  | cons hd tl ih =>
    intro o ho
    simp only [latestOpFor] at h
    by_cases hdid : hd.did = did
    · rw [if_pos hdid] at h
      cases hr : latestOpFor tl did <;> rw [hr] at h <;>
        simp only [pickNewer] at h
      · simp at h
      · split at h <;> simp at h
    · rw [if_neg hdid] at h
      rcases List.mem_cons.mp ho with rfl | htl
      · exact hdid
      · exact ih h o htl

theorem latestOpFor_mem (ops : List DBOp) (did : String) (op : DBOp)
    (h : latestOpFor ops did = some op) : op ∈ ops ∧ op.did = did := by
  induction ops generalizing op with
  | nil => simp [latestOpFor] at h
  | cons hd tl ih =>
    simp only [latestOpFor] at h
    by_cases hdid : hd.did = did
    · rw [if_pos hdid] at h
      cases hr : latestOpFor tl did with
      | none =>
        rw [hr] at h
        simp only [pickNewer] at h
        obtain rfl : hd = op := by simpa using h
        exact ⟨List.mem_cons_self _ _, hdid⟩
      | some best =>
        rw [hr] at h
        simp only [pickNewer] at h
        by_cases hlt : hd.createdAt.nanos < best.createdAt.nanos
        · rw [if_pos hlt] at h
          obtain rfl : best = op := by simpa using h
          obtain ⟨hm, hbd⟩ := ih best hr
          exact ⟨List.mem_cons_of_mem _ hm, hbd⟩
        · rw [if_neg hlt] at h
          obtain rfl : hd = op := by simpa using h
          exact ⟨List.mem_cons_self _ _, hdid⟩
    · rw [if_neg hdid] at h
      obtain ⟨hm, hbd⟩ := ih op h
      exact ⟨List.mem_cons_of_mem _ hm, hbd⟩

theorem latestOpFor_max (ops : List DBOp) (did : String) (op : DBOp)
    (h : latestOpFor ops did = some op) :
    ∀ o ∈ ops, o.did = did → o.createdAt.nanos ≤ op.createdAt.nanos := by
  induction ops generalizing op with
  | nil => simp [latestOpFor] at h
  | cons hd tl ih =>
    intro o ho hodid
    simp only [latestOpFor] at h
    by_cases hdid : hd.did = did
    · rw [if_pos hdid] at h
      cases hr : latestOpFor tl did with
      | none =>
        rw [hr] at h
        simp only [pickNewer] at h
        obtain rfl : hd = op := by simpa using h
        rcases List.mem_cons.mp ho with rfl | htl
        · exact le_refl _
        · exact absurd hodid (latestOpFor_none tl did hr o htl)
      | some best =>
        rw [hr] at h
        simp only [pickNewer] at h
        by_cases hlt : hd.createdAt.nanos < best.createdAt.nanos
        · rw [if_pos hlt] at h
          obtain rfl : best = op := by simpa using h
          rcases List.mem_cons.mp ho with rfl | htl
          · exact le_of_lt hlt
          · exact ih best hr o htl hodid
        · rw [if_neg hlt] at h
          obtain rfl : hd = op := by simpa using h
          rcases List.mem_cons.mp ho with rfl | htl
          · exact le_refl _
          · exact le_trans (ih best hr o htl hodid) (not_lt.mp hlt)
    · rw [if_neg hdid] at h
      rcases List.mem_cons.mp ho with rfl | htl
      · exact absurd hodid hdid
      · exact ih op h o htl hodid

theorem asStringList_ok (xs : List JSONValue) (ys : List String)
    (h : asStringList xs = .ok ys) : xs = ys.map JSONValue.str := by
  induction xs generalizing ys with
  | nil =>
    simp only [asStringList] at h
    obtain rfl : ([] : List String) = ys := by simpa using h
    rfl
  | cons x rest ih =>
    cases x with
    | str s =>
      simp only [asStringList] at h
      cases hr : asStringList rest with
      | ok r =>
        simp only [hr] at h
        obtain rfl : s :: r = ys := by simpa using h
        simp [ih r hr]
      | error e => simp only [hr] at h; simp at h
    | null => simp [asStringList] at h
    | bool b => simp [asStringList] at h
    | num n => simp [asStringList] at h
    | arr l => simp [asStringList] at h
    | obj l => simp [asStringList] at h

theorem extractServices_mem (entries : List (String × JSONValue)) (svcs : List DocService)
    (h : extractServices entries = .ok svcs) :
    ∀ k v, (k, v) ∈ entries → ∃ fields t ep, v = .obj fields ∧
      lookupField fields "type" = some (.str t) ∧
      lookupField fields "endpoint" = some (.str ep) ∧
      ({ id := "#" ++ k, type := t, serviceEndpoint := ep } : DocService) ∈ svcs := by
  induction entries generalizing svcs with
  | nil => intro k v hm; simp at hm
  | cons e rest ih =>
    intro k v hm
    obtain ⟨ek, ev⟩ := e
    cases ev with
    | obj fields =>
      simp only [extractServices] at h
      cases ht : lookupField fields "type" with
      | none => simp [ht] at h
      | some tv =>
        simp only [ht] at h
        cases tv with
        | str t =>
          cases hep : lookupField fields "endpoint" with
          | none => simp [hep] at h
          | some epv =>
            simp only [hep] at h
            cases epv with
            | str ep =>
              cases hr : extractServices rest with
              | ok r =>
                simp only [hr] at h
                obtain rfl : ({ id := "#" ++ ek, type := t, serviceEndpoint := ep } :
                    DocService) :: r = svcs := by simpa using h
                rcases List.mem_cons.mp hm with hpair | htl
                · obtain ⟨rfl, rfl⟩ := Prod.mk.injEq .. ▸ hpair
                  exact ⟨fields, t, ep, rfl, ht, hep, List.mem_cons_self _ _⟩
                · obtain ⟨f, t', ep', hv, ht', hep', hmem⟩ := ih r hr k v htl
                  exact ⟨f, t', ep', hv, ht', hep', List.mem_cons_of_mem _ hmem⟩
              | error e => simp [hr] at h
            | null => simp at h
            | bool b => simp at h
            | num n => simp at h
            | arr l => simp at h
            | obj l => simp at h
        | null => simp at h
        | bool b => simp at h
        | num n => simp at h
        | arr l => simp at h
        | obj l => simp at h
    | null => simp [extractServices] at h
    | bool b => simp [extractServices] at h
    | num n => simp [extractServices] at h
    | str s => simp [extractServices] at h
    | arr l => simp [extractServices] at h

theorem extractVerificationMethods_mem (did : String)
    (entries : List (String × JSONValue)) (vms : List DocVerificationMethod)
    (h : extractVerificationMethods did entries = .ok vms) :
    ∀ k v, (k, v) ∈ entries → ∃ s, v = .str s ∧
      ({ id := did ++ "#" ++ k, type := "Multikey", controller := did,
         publicKeyMultibase := trimPref s "did:key:" } : DocVerificationMethod) ∈ vms := by
  induction entries generalizing vms with
  | nil => intro k v hm; simp at hm
  | cons e rest ih =>
    intro k v hm
    obtain ⟨ek, ev⟩ := e
    cases ev with
    | str s =>
      simp only [extractVerificationMethods] at h
      cases hr : extractVerificationMethods did rest with
      | ok r =>
        simp only [hr] at h
        obtain rfl :
            ({ id := did ++ "#" ++ ek, type := "Multikey", controller := did,
               publicKeyMultibase := trimPref s "did:key:" } :
              DocVerificationMethod) :: r = vms := by simpa using h
        rcases List.mem_cons.mp hm with hpair | htl
        · obtain ⟨rfl, rfl⟩ := Prod.mk.injEq .. ▸ hpair
          exact ⟨s, rfl, List.mem_cons_self _ _⟩
        · obtain ⟨s', hv, hmem⟩ := ih r hr k v htl
          exact ⟨s', hv, List.mem_cons_of_mem _ hmem⟩
      | error e => simp [hr] at h
    | null => simp [extractVerificationMethods] at h
    | bool b => simp [extractVerificationMethods] at h
    | num n => simp [extractVerificationMethods] at h
    | arr l => simp [extractVerificationMethods] at h
    | obj l => simp [extractVerificationMethods] at h

theorem projectDoc_ok (did : String) (j : JSONValue) (doc : DIDDocument)
    (h : projectDoc did j = .ok doc) :
    doc.context = contexts ∧ doc.id = did ∧
    ∃ opMap akaRaw, j = .obj opMap ∧
      lookupField opMap "alsoKnownAs" = some (.arr akaRaw) ∧
      asStringList akaRaw = .ok doc.alsoKnownAs ∧
      servicesResult opMap = .ok doc.service ∧
      vmResult did opMap = .ok doc.verificationMethod := by
  cases j with
  | obj opMap =>
    cases haka : lookupField opMap "alsoKnownAs" with
    | none => simp [projectDoc, haka] at h
    | some akaVal =>
      cases akaVal with
      | arr akaRaw =>
        simp only [projectDoc, haka] at h
        cases hstr : asStringList akaRaw with
        | error e => simp [hstr] at h
        | ok aka =>
          simp only [hstr] at h
          cases hsv : servicesResult opMap with
          | error e => simp [hsv] at h
          | ok svcs =>
            simp only [hsv] at h
            cases hvm : vmResult did opMap with
            | error e => simp [hvm] at h
            | ok vms =>
              simp only [hvm] at h
              obtain rfl :
                  ({ context := contexts, id := did, alsoKnownAs := aka,
                     service := svcs, verificationMethod := vms } : DIDDocument) = doc := by
                simpa using h
              exact ⟨rfl, rfl, opMap, akaRaw, rfl, haka, hstr, hsv, hvm⟩
      | null => simp [projectDoc, haka] at h
      | bool b => simp [projectDoc, haka] at h
      | num n => simp [projectDoc, haka] at h
      | str s => simp [projectDoc, haka] at h
      | obj l => simp [projectDoc, haka] at h
  | null => simp [projectDoc] at h
  | bool b => simp [projectDoc] at h
  | num n => simp [projectDoc] at h
  | str s => simp [projectDoc] at h
  | arr l => simp [projectDoc] at h

/-! ## Claim C1 -/

/-- Claim C1: for every subject with at least one stored directory
operation, `GetDIDDocument` projects the stored operation with the highest
creation timestamp into a document with the fixed context triple, the
operation's `alsoKnownAs` copied as-is, one service per `services` entry
and one `Multikey` verification method (with any `did:key:` lead stripped)
per `verificationMethods` entry. -/
theorem c1_did_document_projection (ops : List DBOp) (did : String) (doc : DIDDocument)
    (h : getDIDDocument ops did = .ok doc) : ProjectionSpec ops did doc := by
  unfold getDIDDocument at h
  cases hop : latestOpFor ops did with
  | none => rw [hop] at h; simp at h
  | some op =>
    rw [hop] at h
    obtain ⟨hctx, hid, opMap, akaRaw, hobj, haka, hstr, hsv, hvm⟩ :=
      projectDoc_ok did op.operation doc h
    obtain ⟨hmem, hdid⟩ := latestOpFor_mem ops did op hop
    refine ⟨op, hop, hmem, hdid, latestOpFor_max ops did op hop, hctx, hid, ?_, ?_, ?_⟩
    · exact ⟨opMap, akaRaw, hobj, haka, asStringList_ok akaRaw doc.alsoKnownAs hstr⟩
    · intro opMap' svcs hobj' hlook
      obtain rfl : opMap' = opMap := by
        rw [hobj] at hobj'
        exact (JSONValue.obj.injEq .. ▸ hobj').symm
      unfold servicesResult at hsv
      rw [hlook] at hsv
      exact extractServices_mem svcs doc.service hsv
    · intro opMap' vms hobj' hlook
      obtain rfl : opMap' = opMap := by
        rw [hobj] at hobj'
        exact (JSONValue.obj.injEq .. ▸ hobj').symm
      unfold vmResult at hvm
      rw [hlook] at hvm
      exact extractVerificationMethods_mem did vms doc.verificationMethod hvm

/-- Witness for C1: the scenario S4 operation table, evaluated concretely. -/
theorem c1_witness :
    getDIDDocument s4ops "did:plc:xyz" = .ok s4doc ∧
    ProjectionSpec s4ops "did:plc:xyz" s4doc :=
  ⟨rfl, c1_did_document_projection s4ops "did:plc:xyz" s4doc rfl⟩

/-! ## Claim C2 -/

/-- Claim C2 evaluation at the failing input: the stored table holds a
non-nullified operation (timestamp 1, `alsoKnownAs` alice) and a newer
nullified one (timestamp 2, `alsoKnownAs` bob).  The reader query of
`GetDIDDocument` has no `nullified` filter, so the projection is built from
the nullified latest operation (bob), not from the latest non-nullified one
(alice) as the claim requires. -/
theorem c2_nullified_not_ignored :
    nullifScenarioNew.nullified = true ∧
    getDIDDocument nullifScenarioOps "did:plc:xyz" =
      .ok { context := contexts, id := "did:plc:xyz",
            alsoKnownAs := ["at://bob.test"], service := [],
            verificationMethod := [] } ∧
    getDIDDocument (nullifScenarioOps.filter (fun o => !o.nullified)) "did:plc:xyz" =
      .ok { context := contexts, id := "did:plc:xyz",
            alsoKnownAs := ["at://alice.test"], service := [],
            verificationMethod := [] } :=
  ⟨rfl, rfl, rfl⟩

/-! ## Claim C3 -/

theorem setQueryParam_mem (q : List (String × String)) (k v : String) :
    (k, v) ∈ setQueryParam q k v := by
  induction q with
  | nil => simp [setQueryParam]
  | cons kv rest ih =>
    obtain ⟨k', v'⟩ := kv
    by_cases hk : k' = k
    · simp [setQueryParam, hk]
    · simp only [setQueryParam, if_neg hk]
      exact List.mem_cons_of_mem _ ih

/-- Counterexample to claim C3 as stated: a persisted stream cursor whose
saved sequence is 0 yields a dial URL carrying no `seq` query parameter
(`Stream.Start` only sets it when `LastSeq != 0`). -/
theorem c3_counterexample :
    dialURL relayBaseURL zeroSeqCursor = relayBaseURL ∧
    ("seq", toString zeroSeqCursor.lastSeq) ∉ (dialURL relayBaseURL zeroSeqCursor).query := by
  decide

/-- Claim C3 amended: when the persisted stream cursor's last sequence S is
nonzero, the dialed WebSocket URL carries the query parameter `seq=S`; and
whenever the PLC paginator's cursor row has been persisted, the export
request URL contains `after=<last creation timestamp in RFC3339 with
nanosecond precision>`. -/
theorem c3_cursor_recovery (u : SocketURL) (c : StreamCursor) (hseq : c.lastSeq ≠ 0)
    (host : String) (pageSize : Int) (cur : PLCCursor) (hid : cur.id ≠ 0) :
    ("seq", toString c.lastSeq) ∈ (dialURL u c).query ∧
    containsStr (plcExportURL host pageSize cur)
      ("after=" ++ rfc3339Nano cur.lastCreatedAt) := by
  constructor
  · unfold dialURL
    rw [if_pos hseq]
    exact setQueryParam_mem u.query "seq" (toString c.lastSeq)
  · unfold plcExportURL
    rw [if_pos hid]
    refine ⟨host ++ "/export?count=" ++ toString pageSize ++ "&", "", ?_⟩
    rw [String.append_empty]
    rw [show ("&after=" : String) = "&" ++ "after=" from rfl]
    simp only [String.append_assoc]

/-- Witness for the amended C3: scenario S3's cursor at sequence 100 and a
persisted paginator cursor. -/
theorem c3_witness :
    seq100Cursor.lastSeq ≠ 0 ∧ persistedPLCCursor.id ≠ 0 ∧
    (("seq", toString seq100Cursor.lastSeq) ∈ (dialURL relayBaseURL seq100Cursor).query ∧
     containsStr (plcExportURL "https://plc.directory" 1000 persistedPLCCursor)
       ("after=" ++ rfc3339Nano persistedPLCCursor.lastCreatedAt)) :=
  ⟨by decide, by decide,
   c3_cursor_recovery relayBaseURL seq100Cursor (by decide)
     "https://plc.directory" 1000 persistedPLCCursor (by decide)⟩

/-! ## Claim C7 -/

theorem foldl_advanceCursor_last (page : List PLCOp) (lastOp : PLCOp)
    (hlast : page.getLast? = some lastOp) (c : PLCCursor) :
    (page.foldl advanceCursor c).did = lastOp.did ∧
    (page.foldl advanceCursor c).cid = lastOp.cid ∧
    (page.foldl advanceCursor c).lastCreatedAt = lastOp.createdAt := by
  induction page generalizing c with
  | nil => simp at hlast
  | cons hd tl ih =>
    cases tl with
    | nil =>
      obtain rfl : hd = lastOp := by simpa using hlast
      simp [advanceCursor]
    | cons h2 t2 =>
      rw [List.getLast?_cons_cons] at hlast
      rw [List.foldl_cons]
      exact ih hlast (advanceCursor c hd)

/-- Counterexample to claim C7 as stated: with a failed batch insert, the
in-memory cursor — the state that forms the next export request's `after`
parameter — has already advanced past the failed page. -/
theorem c7_counterexample :
    (getNextPage plcStateBefore plcFailedPage false true true).1.cursor.lastCreatedAt ≠
      plcStateBefore.cursor.lastCreatedAt ∧
    plcExportURL "https://plc.directory" 1000
        (getNextPage plcStateBefore plcFailedPage false true true).1.cursor ≠
      plcExportURL "https://plc.directory" 1000 plcStateBefore.cursor := by
  decide

/-- Claim C7 amended: when the batch insert of a fetched page fails, the
persisted cursor row and the ops table are unchanged and `GetNextPage`
returns the wrapped write error — but the in-memory cursor, which supplies
the next export request's `after` value, has already been advanced during
the decode loop to the failed page's last entry, so the failed page is not
re-fetched until the process restarts from the persisted row. -/
theorem c7_cursor_after_failed_write (st : PLCState) (page : List PLCOp)
    (lastOp : PLCOp) (hlast : page.getLast? = some lastOp) (wd sc : Bool) :
    (getNextPage st page false wd sc).1.persisted = st.persisted ∧
    (getNextPage st page false wd sc).1.ops = st.ops ∧
    (getNextPage st page false wd sc).2 = .error "failed to save ops" ∧
    (getNextPage st page false wd sc).1.cursor.did = lastOp.did ∧
    (getNextPage st page false wd sc).1.cursor.lastCreatedAt = lastOp.createdAt := by
  have hne : page.isEmpty = false := by
    cases page
    · simp at hlast
    · rfl
  obtain ⟨h1, h2, h3⟩ := foldl_advanceCursor_last page lastOp hlast st.cursor
  simp [getNextPage, hne, h1, h3]

/-- Witness for the amended C7: the concrete failed page over the persisted
cursor state. -/
theorem c7_witness :
    plcFailedPage.getLast? = some plcFailedOp ∧
    ((getNextPage plcStateBefore plcFailedPage false true true).1.persisted =
        plcStateBefore.persisted ∧
     (getNextPage plcStateBefore plcFailedPage false true true).1.ops =
        plcStateBefore.ops ∧
     (getNextPage plcStateBefore plcFailedPage false true true).2 =
        .error "failed to save ops" ∧
     (getNextPage plcStateBefore plcFailedPage false true true).1.cursor.did =
        plcFailedOp.did ∧
     (getNextPage plcStateBefore plcFailedPage false true true).1.cursor.lastCreatedAt =
        plcFailedOp.createdAt) :=
  ⟨rfl, c7_cursor_after_failed_write plcStateBefore plcFailedPage plcFailedOp rfl true true⟩

/-! ## Claim C4 -/

/-- Claim C4: a commit frame with the `tooBig` flag produces exactly the
one event row carrying the frame's sequence, repository, kind `commit` and
the error string `commit too big`, and zero record rows; the callback
returns normally (the Go handler returns `nil` on this path), so the
stream proceeds to later frames. -/
theorem c4_too_big_commit (ext : DecodeCtx) (evt : CommitEvt) (h : evt.tooBig = true) :
    repoCommit ext evt =
      ({ firehoseSeq := evt.seq, repo := evt.repo, eventType := "commit",
         error := "commit too big", time := 0, since := evt.since }, []) := by
  simp [repoCommit, h]

/-- Witness for C4: scenario S1, seq 42 for `did:plc:aaaa`. -/
theorem c4_witness :
    s1evt.tooBig = true ∧
    repoCommit s2ctx s1evt =
      ({ firehoseSeq := 42, repo := "did:plc:aaaa", eventType := "commit",
         error := "commit too big", time := 0, since := none }, []) :=
  ⟨rfl, c4_too_big_commit s2ctx s1evt rfl⟩

/-! ## Claim C5 -/

/-- Claim C5: inside a commit frame, a create/update operation whose
declared hash is absent, whose declared hash differs from the block's hash,
or whose looked-up bytes are nil, writes no record row; an error naming the
operation's path is appended to the event row's error accumulator (for a
hash mismatch it contains `cid mismatch (path: "<path>")`); and the
remaining operations of the frame are still processed. -/
theorem c5_bad_op_skipped (ctx : DecodeCtx) (seq : Int) (repo acc : String)
    (op : CommitOp) (rest : List CommitOp)
    (hact : op.action = "create" ∨ op.action = "update")
    (hbad : op.cid = none
      ∨ (∃ c bc r, op.cid = some c ∧ ctx.fetch op.path = .ok (bc, r) ∧ c ≠ bc)
      ∨ (∃ c, op.cid = some c ∧ ctx.fetch op.path = .ok (c, none))) :
    (processOp ctx seq repo acc op).2 = [] ∧
    (∃ msg, (processOp ctx seq repo acc op).1 = acc ++ msg ∧
      containsStr msg (goQuote op.path)) ∧
    ((∃ c bc r, op.cid = some c ∧ ctx.fetch op.path = .ok (bc, r) ∧ c ≠ bc) →
      containsStr (processOp ctx seq repo acc op).1
        ("cid mismatch (path: " ++ (goQuote op.path ++ ")"))) ∧
    (processOps ctx seq repo acc (op :: rest)).2 =
      (processOps ctx seq repo (processOp ctx seq repo acc op).1 rest).2 := by
  rcases hbad with hnone | ⟨c, bc, r, hcid, hfetch, hne⟩ | ⟨c, hcid, hfetch⟩
  · have key : processOp ctx seq repo acc op =
        (acc ++ ("op missing cid (path: " ++ (goQuote op.path ++ ")")), []) := by
      unfold processOp
      rw [if_pos hact, hnone]
    refine ⟨by rw [key], ?_, ?_, ?_⟩
    · exact ⟨_, by rw [key], "op missing cid (path: ", ")", rfl⟩
    · rintro ⟨c, bc, r, hc, -, -⟩
      rw [hnone] at hc
      exact absurd hc (by simp)
    · simp [processOps, key]
  · have key : processOp ctx seq repo acc op =
        (acc ++ ("cid mismatch (path: " ++ (goQuote op.path ++
          ("): from_event " ++ (goQuote c ++ (", from_blocks " ++ goQuote bc))))), []) := by
      unfold processOp
      rw [if_pos hact]
      simp only [hcid, hfetch]
      rw [if_pos hne]
    refine ⟨by rw [key], ?_, ?_, ?_⟩
    · exact ⟨_, by rw [key],
        "cid mismatch (path: ",
        "): from_event " ++ (goQuote c ++ (", from_blocks " ++ goQuote bc)), rfl⟩
    · intro _
      rw [key]
      refine ⟨acc, ": from_event " ++ (goQuote c ++ (", from_blocks " ++ goQuote bc)), ?_⟩
      rw [show ("): from_event " : String) = ")" ++ ": from_event " from rfl]
      simp only [String.append_assoc]
    · simp [processOps, key]
  · have key : processOp ctx seq repo acc op =
        (acc ++ ("record not found (nil bytes loaded from event blocks) path: " ++
          goQuote op.path), []) := by
      unfold processOp
      rw [if_pos hact]
      simp only [hcid, hfetch]
      rw [if_neg (by simp : ¬ c ≠ c)]
    refine ⟨by rw [key], ?_, ?_, ?_⟩
    · refine ⟨_, by rw [key],
        "record not found (nil bytes loaded from event blocks) path: ", "", ?_⟩
      rw [String.append_empty]
    · rintro ⟨c', bc', r', hc', hf', hne'⟩
      rw [hcid] at hc'
      obtain rfl : c = c' := by simpa using hc'
      rw [hfetch] at hf'
      obtain ⟨hbc, -⟩ : c = bc' ∧ (none : Option (List Nat)) = r' := by simpa using hf'
      exact absurd hbc hne'
    · simp [processOps, key]

/-- Witness for C5: scenario S2, a create op at
`app.bsky.feed.post/3kabc` whose declared hash `bafyEVENT` differs from the
block store's `bafyBLOCK`. -/
theorem c5_witness :
    (s2op.action = "create" ∨ s2op.action = "update") ∧
    (s2op.cid = none
      ∨ (∃ c bc r, s2op.cid = some c ∧ s2ctx.fetch s2op.path = .ok (bc, r) ∧ c ≠ bc)
      ∨ (∃ c, s2op.cid = some c ∧ s2ctx.fetch s2op.path = .ok (c, none))) ∧
    ((processOp s2ctx 42 "did:plc:aaaa" "" s2op).2 = [] ∧
     (∃ msg, (processOp s2ctx 42 "did:plc:aaaa" "" s2op).1 = "" ++ msg ∧
       containsStr msg (goQuote s2op.path)) ∧
     ((∃ c bc r, s2op.cid = some c ∧ s2ctx.fetch s2op.path = .ok (bc, r) ∧ c ≠ bc) →
       containsStr (processOp s2ctx 42 "did:plc:aaaa" "" s2op).1
         ("cid mismatch (path: " ++ (goQuote s2op.path ++ ")"))) ∧
     (processOps s2ctx 42 "did:plc:aaaa" "" (s2op :: [])).2 =
       (processOps s2ctx 42 "did:plc:aaaa"
         (processOp s2ctx 42 "did:plc:aaaa" "" s2op).1 []).2) := by
  have hact : s2op.action = "create" ∨ s2op.action = "update" := Or.inl rfl
  have hbad : s2op.cid = none
      ∨ (∃ c bc r, s2op.cid = some c ∧ s2ctx.fetch s2op.path = .ok (bc, r) ∧ c ≠ bc)
      ∨ (∃ c, s2op.cid = some c ∧ s2ctx.fetch s2op.path = .ok (c, none)) :=
    Or.inr (Or.inl ⟨"bafyEVENT", "bafyBLOCK", some [1, 2, 3], rfl, rfl, by decide⟩)
  exact ⟨hact, hbad, c5_bad_op_skipped s2ctx 42 "did:plc:aaaa" "" s2op [] hact hbad⟩

/-! ## Claim C8 -/

/-- Claim C8 evaluation at the failing input: for a handle frame whose
upstream time string fails to parse, no event row is persisted at all —
the deferred insert is registered only after a successful parse, so the
`e.Error` assignment on the failure path stores into a row that is then
discarded — whereas the same frame with a parseable time yields exactly
one row.  The identity, migrate and tombstone handlers share the same
shape.  The claim (and the spec) require exactly one row carrying the
parse error in the failure case. -/
theorem c8_no_row_on_unparseable_time :
    repoHandle failParse badTimeFrame = none ∧
    repoHandle okParse badTimeFrame =
      some { firehoseSeq := 7, repo := "did:plc:aaaa", eventType := "handle",
             error := "", time := 1700000000000000000, since := none } :=
  ⟨rfl, rfl⟩

/-! ## Claim C6 -/

/-- Claim C6: `GET /records` with a `collection` parameter but no `did`,
or with an `rkey` parameter but not both `did` and `collection`, answers
HTTP 400 with a JSON error body and never reaches the database query. -/
theorem c6_records_query_guards (p : SyntaxParsers) (dbErr : Option String)
    (params : RecordsParams) :
    (params.collection ≠ "" → params.did = "" →
      (handleGetRecords p dbErr params).status = 400 ∧
      (handleGetRecords p dbErr params).errorBody ≠ "" ∧
      (handleGetRecords p dbErr params).dbQueried = false) ∧
    (params.rkey ≠ "" → params.did = "" ∨ params.collection = "" →
      (handleGetRecords p dbErr params).status = 400 ∧
      (handleGetRecords p dbErr params).errorBody ≠ "" ∧
      (handleGetRecords p dbErr params).dbQueried = false) := by
  constructor
  · intro hcoll hdid
    unfold handleGetRecords
    split
    · exact ⟨rfl, strAppend_ne_empty _ _ (by decide), rfl⟩
    next didQ hdidQ =>
      split
      · exact ⟨rfl, strAppend_ne_empty _ _ (by decide), rfl⟩
      next collQ hcollQ =>
        split
        · exact ⟨rfl, strAppend_ne_empty _ _ (by decide), rfl⟩
        next rkeyQ hrkeyQ =>
          split
          · exact ⟨rfl, strAppend_ne_empty _ _ (by decide), rfl⟩
          next seqQ hseqQ =>
            split
            · exact ⟨rfl, by decide, rfl⟩
            next hg1 =>
              split
              · exact ⟨rfl, by decide, rfl⟩
              next hg2 =>
                exfalso
                apply hg1
                constructor
                · rw [if_pos hcoll] at hcollQ
                  cases hns : p.parseNSID params.collection with
                  | error e => rw [hns] at hcollQ; simp [Except.map] at hcollQ
                  | ok x =>
                    rw [hns] at hcollQ
                    obtain rfl : some x = collQ := by
                      simpa [Except.map] using hcollQ
                    simp
                · rw [if_neg (by simp [hdid])] at hdidQ
                  obtain rfl : (none : Option String) = didQ := by simpa using hdidQ
                  simp
  · intro hrkey hdc
    unfold handleGetRecords
    split
    · exact ⟨rfl, strAppend_ne_empty _ _ (by decide), rfl⟩
    next didQ hdidQ =>
      split
      · exact ⟨rfl, strAppend_ne_empty _ _ (by decide), rfl⟩
      next collQ hcollQ =>
        split
        · exact ⟨rfl, strAppend_ne_empty _ _ (by decide), rfl⟩
        next rkeyQ hrkeyQ =>
          split
          · exact ⟨rfl, strAppend_ne_empty _ _ (by decide), rfl⟩
          next seqQ hseqQ =>
            split
            · exact ⟨rfl, by decide, rfl⟩
            next hg1 =>
              split
              · exact ⟨rfl, by decide, rfl⟩
              next hg2 =>
                exfalso
                apply hg2
                constructor
                · rw [if_pos hrkey] at hrkeyQ
                  cases hrk : p.parseRecordKey params.rkey with
                  | error e => rw [hrk] at hrkeyQ; simp [Except.map] at hrkeyQ
                  | ok x =>
                    rw [hrk] at hrkeyQ
                    obtain rfl : some x = rkeyQ := by
                      simpa [Except.map] using hrkeyQ
                    simp
                · rcases hdc with hdid | hcoll
                  · left
                    rw [if_neg (by simp [hdid])] at hdidQ
                    obtain rfl : (none : Option String) = didQ := by simpa using hdidQ
                    simp
                  · right
                    rw [if_neg (by simp [hcoll])] at hcollQ
                    obtain rfl : (none : Option String) = collQ := by simpa using hcollQ
                    simp

/-- Witness for C6: concrete parameter sets exercising both guards. -/
theorem c6_witness :
    (("app.bsky.feed.post" : String) ≠ "" ∧ ("" : String) = "" ∧
      (handleGetRecords acceptAllParsers none
        { did := "", collection := "app.bsky.feed.post", rkey := "", seq := "",
          limit := "" }).status = 400 ∧
      (handleGetRecords acceptAllParsers none
        { did := "", collection := "app.bsky.feed.post", rkey := "", seq := "",
          limit := "" }).dbQueried = false) ∧
    (("3kabc" : String) ≠ "" ∧
      (handleGetRecords acceptAllParsers none
        { did := "did:plc:aaaa", collection := "", rkey := "3kabc", seq := "",
          limit := "" }).status = 400 ∧
      (handleGetRecords acceptAllParsers none
        { did := "did:plc:aaaa", collection := "", rkey := "3kabc", seq := "",
          limit := "" }).dbQueried = false) := by
  have h1 := (c6_records_query_guards acceptAllParsers none
    { did := "", collection := "app.bsky.feed.post", rkey := "", seq := "",
      limit := "" }).1 (by decide) rfl
  have h2 := (c6_records_query_guards acceptAllParsers none
    { did := "did:plc:aaaa", collection := "", rkey := "3kabc", seq := "",
      limit := "" }).2 (by decide) (Or.inr rfl)
  exact ⟨⟨by decide, rfl, h1.1, h1.2.2⟩, ⟨by decide, h2.1, h2.2.2⟩⟩

/-! ## Claim C10 -/

theorem finishWithLimit_ok (ls : String) (n : Int) (h : goAtoi ls = some n) :
    finishWithLimit ls none =
      { status := 200, errorBody := "", dbQueried := true,
        limitUsed := some (clampedLimit n) } := by
  have hne : ls ≠ "" := by
    intro he
    rw [he] at h
    simp [goAtoi, goAtoiDigits] at h
  unfold finishWithLimit
  rw [if_pos hne, h]
  simp only [clampedLimit, HandlerResult.mk.injEq, Option.some.injEq, true_and]
  split_ifs <;> omega

/-- Claim C10: for each of the three list endpoints, a `limit` parameter
that parses as an integer is silently clamped — above 1000 to 1000, below
1 to the default 100 — and the request proceeds to query the database and
answer HTTP 200 (other parameters absent and the reader healthy). -/
theorem c10_limit_clamped (p : SyntaxParsers) (ls : String) (n : Int)
    (h : goAtoi ls = some n) :
    (handleGetRecords p none
        { did := "", collection := "", rkey := "", seq := "", limit := ls }).status = 200 ∧
    (handleGetRecords p none
        { did := "", collection := "", rkey := "", seq := "", limit := ls }).limitUsed =
      some (clampedLimit n) ∧
    (handleGetEvents p none
        { did := "", eventType := "", seq := "", limit := ls }).status = 200 ∧
    (handleGetEvents p none
        { did := "", eventType := "", seq := "", limit := ls }).limitUsed =
      some (clampedLimit n) ∧
    (handleGetIdentities p none
        { did := "", handle := "", pds := "", limit := ls }).status = 200 ∧
    (handleGetIdentities p none
        { did := "", handle := "", pds := "", limit := ls }).limitUsed =
      some (clampedLimit n) := by
  have hr : handleGetRecords p none
      { did := "", collection := "", rkey := "", seq := "", limit := ls } =
      finishWithLimit ls none := rfl
  have he : handleGetEvents p none
      { did := "", eventType := "", seq := "", limit := ls } =
      finishWithLimit ls none := rfl
  have hi : handleGetIdentities p none
      { did := "", handle := "", pds := "", limit := ls } =
      finishWithLimit ls none := rfl
  rw [finishWithLimit_ok ls n h] at hr he hi
  exact ⟨by rw [hr], by rw [hr], by rw [he], by rw [he], by rw [hi], by rw [hi]⟩

/-- Witness for C10: an out-of-range limit of 5000 is clamped to 1000. -/
theorem c10_witness :
    goAtoi "5000" = some 5000 ∧ clampedLimit 5000 = 1000 ∧
    ((handleGetRecords acceptAllParsers none
        { did := "", collection := "", rkey := "", seq := "", limit := "5000" }).status = 200 ∧
     (handleGetRecords acceptAllParsers none
        { did := "", collection := "", rkey := "", seq := "", limit := "5000" }).limitUsed =
       some (clampedLimit 5000) ∧
     (handleGetEvents acceptAllParsers none
        { did := "", eventType := "", seq := "", limit := "5000" }).status = 200 ∧
     (handleGetEvents acceptAllParsers none
        { did := "", eventType := "", seq := "", limit := "5000" }).limitUsed =
       some (clampedLimit 5000) ∧
     (handleGetIdentities acceptAllParsers none
        { did := "", handle := "", pds := "", limit := "5000" }).status = 200 ∧
     (handleGetIdentities acceptAllParsers none
        { did := "", handle := "", pds := "", limit := "5000" }).limitUsed =
       some (clampedLimit 5000)) :=
  ⟨rfl, by decide, c10_limit_clamped acceptAllParsers "5000" 5000 rfl⟩

end ATools
